import Mathlib

/-
  Verification development for the data-donation run-cycle protocol.

  Shallow embedding of:
  - src/src/framework/processing/worker_engine.ts  (WorkerProcessingEngine)
  - src/unnamed/part_002                           (the processing worker: onmessage,
                                                    runCycle, unwrap, copyFileToPyFS,
                                                    generateErrorMessage)
  - src/unnamed/part_001                           (DonationPage.renderBody)

  The two execution contexts (main thread Engine, worker Script Host) are
  modelled by pure transition functions translated from each handler, and the
  closed system by a small-step relation: delivering a queued message, or
  finishing one of the asynchronous continuations (the initialise promise, an
  unwrap promise, the initialisation .then continuation, a Command Handler
  promise settlement).  The opaque Python script is an oracle
  (Nat for the step counter, plus the resumed payload) producing either a
  yielded script event or a raised error string.
-/

namespace Port

/-! ## Command channel (src/framework/types/commands.ts)

The commands module itself is not under src/; the recognized Command tags are
modelled from the spec: `CommandSystemEvent{name}`,
`CommandSystemDonate{key, json_string}`, `CommandUIRender{page}`. -/

/-- A page description carried by CommandUIRender.  The error page variant
(PropsUIPageError with a stacktrace) is the one the worker constructs in
generateErrorMessage; every other page is kept opaque by its tag. -/
inductive Page where
  | error (stacktrace : String)
  | other (tag : String)
deriving DecidableEq

/-- Modelled from the spec: the recognized Command variants of
src/framework/types/commands.ts (not under src/): CommandSystemEvent,
CommandSystemDonate, CommandUIRender. -/
inductive Command where
  | systemEvent (name : String)
  | systemDonate (key json_string : String)
  | uiRender (page : Page)
deriving DecidableEq

/-- A raw scriptEvent value arriving from the worker: either one of the
recognized Command variants, or a value of an unrecognized type (kept by
its tag). -/
inductive ScriptEvent where
  | cmd (c : Command)
  | unknown (tag : String)
deriving DecidableEq

/-- The recognized Command, if any, of a raw scriptEvent. -/
def asCommand : ScriptEvent → Option Command
  | .cmd c => some c
  | .unknown _ => none

/-- Modelled from the spec: the isCommand type guard of
src/framework/types/commands.ts (not under src/): it recognizes exactly the
three Command tags. -/
def isCommand (ev : ScriptEvent) : Bool :=
  (asCommand ev).isSome

/-- Response payload union: PayloadFile (kept by the file name),
PayloadString, or an absent payload. -/
inductive Payload where
  | file (name : String)
  | string (value : String)
  | void
deriving DecidableEq

/-- A Response carries a Payload (src/framework/types/commands.ts). -/
structure Response where
  payload : Payload
deriving DecidableEq

/-! ## Worker message protocol -/

/-- host → worker messages, by eventType.  Every unrecognized eventType is
kept by its tag in the unknown variant. -/
inductive HostMsg where
  | initialise
  | firstRunCycle (sessionId : String)
  | nextRunCycle (response : Response)
  | unknown (eventType : String)
deriving DecidableEq

/-- worker → host messages, by eventType.  Every unrecognized eventType is
kept by its tag in the unknown variant. -/
inductive WorkerMsg where
  | initialiseDone
  | runCycleDone (scriptEvent : ScriptEvent)
  | unknown (eventType : String)
deriving DecidableEq

/-- Observable events of a run: messages posted on either side, Command
Handler invocations (dispatch for the run-cycle path of handleRunCycle,
dispatchFF for the fire-and-forget calls of trackUserStart and
sendSystemEvent), and settlements of the run-cycle handler promise
(settle c (some r) for a resolution with Response r, settle c none for a
rejection). -/
inductive Ev where
  | postHost (m : HostMsg)
  | postWorker (m : WorkerMsg)
  | dispatch (c : Command)
  | dispatchFF (c : Command)
  | settle (c : Command) (r : Option Response)
deriving DecidableEq

/-- The host → worker messages posted in a list of events, in order. -/
def hostPosts : List Ev → List HostMsg
  | [] => []
  | .postHost m :: es => m :: hostPosts es
  | _ :: es => hostPosts es

/-- The worker → host messages posted in a list of events, in order. -/
def workerPosts : List Ev → List WorkerMsg
  | [] => []
  | .postWorker m :: es => m :: workerPosts es
  | _ :: es => workerPosts es

/-! ## Engine state (worker_engine.ts) -/

/-- Progress of the initialisation promise of waitForInitialization:
idle before start(), waiting once the initialise message is posted,
resolvedPending once resolveInitialized ran but the .then continuation has
not, done once the continuation (sendSystemEvent + firstRunCycle) ran. -/
inductive InitPhase where
  | idle
  | waiting
  | resolvedPending
  | done
deriving DecidableEq

/-- Main-thread engine state: the initialisation phase, the commands whose
handleRunCycle onCommand promise is still pending (its resolution posts
nextRunCycle), and the commands whose fire-and-forget onCommand promise is
still pending (both its callbacks do nothing). -/
structure EngineState where
  initPhase : InitPhase
  pendingCycle : List Command
  pendingFF : List Command
deriving DecidableEq

/-- trackUserStart (worker_engine.ts lines 24 to 36): the CommandSystemDonate
it builds, with key sessionId plus "-tracking" and json_string
JSON.stringify of the object with message "user started". -/
def trackUserStart (sessionId : String) : Command :=
  Command.systemDonate (sessionId ++ "-tracking") "\x7b\"message\":\"user started\"\x7d"

/-- The constructor (worker_engine.ts lines 11 to 22): installs the handlers
and calls trackUserStart, dispatching its command fire-and-forget.  No
message is posted to the worker yet. -/
def engineConstruct (sessionId : String) : EngineState × List Ev :=
  ({ initPhase := .idle, pendingCycle := [], pendingFF := [trackUserStart sessionId] },
   [Ev.dispatchFF (trackUserStart sessionId)])

/-- start / waitForInitialization (lines 64 to 82): registers the resolver
and posts the initialise message. -/
def engineStart (e : EngineState) : EngineState × List Ev :=
  ({ e with initPhase := .waiting }, [Ev.postHost HostMsg.initialise])

/-- resolveInitialized (called from handleEvent on initialiseDone):
resolves the initialisation promise; resolving an already settled promise
does nothing. -/
def resolveInitialized (e : EngineState) : EngineState :=
  match e.initPhase with
  | .waiting => { e with initPhase := .resolvedPending }
  | _ => e

/-- sendSystemEvent (lines 38 to 44): the CommandSystemEvent it builds. -/
def sendSystemEvent (name : String) : Command :=
  Command.systemEvent name

/-- The .then continuation of start (lines 68 to 74): once the
initialisation promise resolved, dispatches sendSystemEvent "initialized"
fire-and-forget and posts firstRunCycle with the session id. -/
def onInitialized (sessionId : String) (e : EngineState) : EngineState × List Ev :=
  ({ e with initPhase := .done, pendingFF := e.pendingFF ++ [sendSystemEvent "initialized"] },
   [Ev.dispatchFF (sendSystemEvent "initialized"),
    Ev.postHost (HostMsg.firstRunCycle sessionId)])

/-- handleRunCycle (lines 97 to 104): if the scriptEvent is a recognized
Command, invoke the Command Handler on it (the promise is now pending, its
resolution will post nextRunCycle); otherwise do nothing. -/
def handleRunCycle (e : EngineState) (ev : ScriptEvent) : EngineState × List Ev :=
  match asCommand ev with
  | some c => ({ e with pendingCycle := e.pendingCycle ++ [c] }, [Ev.dispatch c])
  | none => (e, [])

/-- handleEvent (lines 46 to 62): dispatch on eventType; initialiseDone
resolves the initialisation promise, runCycleDone goes to handleRunCycle,
anything else is only logged. -/
def handleEvent (e : EngineState) (m : WorkerMsg) : EngineState × List Ev :=
  match m with
  | .initialiseDone => (resolveInitialized e, [])
  | .runCycleDone ev => handleRunCycle e ev
  | .unknown _ => (e, [])

/-- Resolution of a pending handleRunCycle onCommand promise with Response r
(line 100): posts nextRunCycle carrying r. -/
def cycleResolve (e : EngineState) (l1 l2 : List Command) (c : Command) (r : Response) :
    EngineState × List Ev :=
  ({ e with pendingCycle := l1 ++ l2 },
   [Ev.settle c (some r), Ev.postHost (HostMsg.nextRunCycle r)])

/-- Rejection of a pending handleRunCycle onCommand promise (line 101):
the rejection callback does nothing. -/
def cycleReject (e : EngineState) (l1 l2 : List Command) (c : Command) :
    EngineState × List Ev :=
  ({ e with pendingCycle := l1 ++ l2 }, [Ev.settle c none])

/-- Settlement of a fire-and-forget onCommand promise (trackUserStart lines
32 to 35, sendSystemEvent lines 40 to 43): both callbacks do nothing, so
neither resolution nor rejection has any observable effect. -/
def settleFF (e : EngineState) (l1 l2 : List Command) (c : Command) :
    EngineState × List Ev :=
  ({ e with pendingFF := l1 ++ l2 }, [])

/-! ## Worker state (src/unnamed/part_002) -/

/-- The opaque script: given the number of steps taken so far and the resumed
payload (none on the first cycle), it either yields a scriptEvent or raises
an error described by a string. -/
abbrev ScriptBeh := Nat → Option Payload → Except String ScriptEvent

/-- Worker-scoped state: the started pyScript (holding the session id it was
started with), the number of send calls made, whether the initialise()
promise is pending, the pending unwrap promises, and the names of the files
mounted at /file-input. -/
structure WorkerState where
  script : Option String
  scriptCtr : Nat
  initPending : Bool
  unwrapPending : List Response
  fs : List String
deriving DecidableEq

/-- copyFileToPyFS (part_002 lines 62 to 78): mounts exactly the given file
under /file-input (replacing any previous mount) and resolves with a
PayloadString holding the path directoryName + "/" + file.name. -/
def copyFileToPyFS (fs : List String) (name : String) : List String × Payload :=
  ([name], Payload.string ("/file-input" ++ "/" ++ name))

/-- unwrap (part_002 lines 48 to 60): a PayloadFile is materialized through
copyFileToPyFS; every other payload resolves unchanged. -/
def unwrap (fs : List String) (r : Response) : List String × Payload :=
  match r.payload with
  | .file name => copyFileToPyFS fs name
  | p => (fs, p)

/-- generateErrorMessage (part_002 lines 120 to 128): a CommandUIRender
whose page is PropsUIPageError carrying the stacktrace. -/
def generateErrorMessage (stacktrace : String) : ScriptEvent :=
  ScriptEvent.cmd (Command.uiRender (Page.error stacktrace))

/-- runCycle (part_002 lines 29 to 46): calls pyScript.send(payload) inside
try/catch; on a yielded event it posts runCycleDone with that event, on a
raised error it posts runCycleDone with generateErrorMessage of the error
text.  When no script was started, pyScript is undefined and the send call
itself raises, which the same catch turns into an error page. -/
def runCycle (beh : ScriptBeh) (w : WorkerState) (input : Option Payload) :
    WorkerState × WorkerMsg :=
  match w.script with
  | some _ =>
    match beh w.scriptCtr input with
    | .ok ev => ({ w with scriptCtr := w.scriptCtr + 1 }, WorkerMsg.runCycleDone ev)
    | .error e =>
        ({ w with scriptCtr := w.scriptCtr + 1 },
         WorkerMsg.runCycleDone (generateErrorMessage e))
  | none =>
      (w, WorkerMsg.runCycleDone
        (generateErrorMessage "TypeError: Cannot read properties of undefined (reading send)"))

/-- onmessage (part_002 lines 3 to 27): initialise starts the asynchronous
initialisation; firstRunCycle starts the script bound to the received
session id and runs one cycle with null input; nextRunCycle starts the
asynchronous unwrap of the received response; every other eventType is only
logged. -/
def workerOnMessage (beh : ScriptBeh) (w : WorkerState) (m : HostMsg) :
    WorkerState × List Ev :=
  match m with
  | .initialise => ({ w with initPending := true }, [])
  | .firstRunCycle sessionId =>
      let w1 := { w with script := some sessionId }
      let res := runCycle beh w1 none
      (res.1, [Ev.postWorker res.2])
  | .nextRunCycle r => ({ w with unwrapPending := w.unwrapPending ++ [r] }, [])
  | .unknown _ => (w, [])

/-- Completion of the initialise() promise (part_002 lines 6 to 10): posts
initialiseDone. -/
def workerInitDone (w : WorkerState) : WorkerState × List Ev :=
  ({ w with initPending := false }, [Ev.postWorker WorkerMsg.initialiseDone])

/-- Completion of a pending unwrap promise (part_002 lines 17 to 22): the
response is unwrapped (materializing a file payload into the worker
filesystem) and the script is resumed with the unwrapped value by
runCycle. -/
def workerUnwrapStep (beh : ScriptBeh) (w : WorkerState) (l1 l2 : List Response)
    (r : Response) : WorkerState × List Ev :=
  let u := unwrap w.fs r
  let w1 := { w with unwrapPending := l1 ++ l2, fs := u.1 }
  let res := runCycle beh w1 (some u.2)
  (res.1, [Ev.postWorker res.2])

/-! ## The closed system -/

/-- The whole system: both sides plus the two in-flight message queues
(each browser message channel delivers in order). -/
structure Sys where
  engine : EngineState
  worker : WorkerState
  q_hw : List HostMsg
  q_wh : List WorkerMsg
deriving DecidableEq

/-- Worker-scoped state at worker creation. -/
def initWorker : WorkerState :=
  { script := none, scriptCtr := 0, initPending := false, unwrapPending := [], fs := [] }

/-- The system right after the engine was constructed and start() was
called, with the trace of events both produced. -/
def initSys (sessionId : String) : Sys × List Ev :=
  let c := engineConstruct sessionId
  let st := engineStart c.1
  ({ engine := st.1, worker := initWorker,
     q_hw := hostPosts (c.2 ++ st.2), q_wh := workerPosts (c.2 ++ st.2) },
   c.2 ++ st.2)

/-- One step of the closed system: delivering the head message of either
queue to its handler, or finishing one of the pending asynchronous
computations (the initialise promise, the initialisation continuation, an
unwrap promise, a Command Handler promise settling by resolution,
rejection, or fire-and-forget).  Each step records its observable events
and appends the messages it posts to the queues. -/
inductive Step (beh : ScriptBeh) (sessionId : String) : Sys → List Ev → Sys → Prop where
  | deliverWorkerToHost (s : Sys) (m : WorkerMsg) (rest : List WorkerMsg)
      (e2 : EngineState) (evs : List Ev)
      (hq : s.q_wh = m :: rest)
      (hh : handleEvent s.engine m = (e2, evs)) :
      Step beh sessionId s evs
        { engine := e2, worker := s.worker,
          q_hw := s.q_hw ++ hostPosts evs, q_wh := rest ++ workerPosts evs }
  | deliverHostToWorker (s : Sys) (m : HostMsg) (rest : List HostMsg)
      (w2 : WorkerState) (evs : List Ev)
      (hq : s.q_hw = m :: rest)
      (hh : workerOnMessage beh s.worker m = (w2, evs)) :
      Step beh sessionId s evs
        { engine := s.engine, worker := w2,
          q_hw := rest ++ hostPosts evs, q_wh := s.q_wh ++ workerPosts evs }
  | engineInitCont (s : Sys) (e2 : EngineState) (evs : List Ev)
      (hp : s.engine.initPhase = InitPhase.resolvedPending)
      (hh : onInitialized sessionId s.engine = (e2, evs)) :
      Step beh sessionId s evs
        { engine := e2, worker := s.worker,
          q_hw := s.q_hw ++ hostPosts evs, q_wh := s.q_wh ++ workerPosts evs }
  | workerInitFinish (s : Sys) (w2 : WorkerState) (evs : List Ev)
      (hp : s.worker.initPending = true)
      (hh : workerInitDone s.worker = (w2, evs)) :
      Step beh sessionId s evs
        { engine := s.engine, worker := w2,
          q_hw := s.q_hw ++ hostPosts evs, q_wh := s.q_wh ++ workerPosts evs }
  | workerUnwrapFinish (s : Sys) (l1 l2 : List Response) (r : Response)
      (w2 : WorkerState) (evs : List Ev)
      (hp : s.worker.unwrapPending = l1 ++ r :: l2)
      (hh : workerUnwrapStep beh s.worker l1 l2 r = (w2, evs)) :
      Step beh sessionId s evs
        { engine := s.engine, worker := w2,
          q_hw := s.q_hw ++ hostPosts evs, q_wh := s.q_wh ++ workerPosts evs }
  | handlerResolve (s : Sys) (l1 l2 : List Command) (c : Command) (r : Response)
      (e2 : EngineState) (evs : List Ev)
      (hp : s.engine.pendingCycle = l1 ++ c :: l2)
      (hh : cycleResolve s.engine l1 l2 c r = (e2, evs)) :
      Step beh sessionId s evs
        { engine := e2, worker := s.worker,
          q_hw := s.q_hw ++ hostPosts evs, q_wh := s.q_wh ++ workerPosts evs }
  | handlerReject (s : Sys) (l1 l2 : List Command) (c : Command)
      (e2 : EngineState) (evs : List Ev)
      (hp : s.engine.pendingCycle = l1 ++ c :: l2)
      (hh : cycleReject s.engine l1 l2 c = (e2, evs)) :
      Step beh sessionId s evs
        { engine := e2, worker := s.worker,
          q_hw := s.q_hw ++ hostPosts evs, q_wh := s.q_wh ++ workerPosts evs }
  | handlerSettleFF (s : Sys) (l1 l2 : List Command) (c : Command)
      (e2 : EngineState) (evs : List Ev)
      (hp : s.engine.pendingFF = l1 ++ c :: l2)
      (hh : settleFF s.engine l1 l2 c = (e2, evs)) :
      Step beh sessionId s evs
        { engine := e2, worker := s.worker,
          q_hw := s.q_hw ++ hostPosts evs, q_wh := s.q_wh ++ workerPosts evs }

/-- States reachable from the constructed-and-started system, with the
accumulated event trace. -/
inductive Reach (beh : ScriptBeh) (sessionId : String) : Sys → List Ev → Prop where
  | init : Reach beh sessionId (initSys sessionId).1 (initSys sessionId).2
  | step (s : Sys) (tr evs : List Ev) (s2 : Sys) :
      Reach beh sessionId s tr → Step beh sessionId s evs s2 →
      Reach beh sessionId s2 (tr ++ evs)

/-- States reachable from an arbitrary system state, with the events
produced along the way. -/
inductive ReachFrom (beh : ScriptBeh) (sessionId : String) : Sys → Sys → List Ev → Prop where
  | refl (s : Sys) : ReachFrom beh sessionId s s []
  | step (s t : Sys) (tr evs : List Ev) (t2 : Sys) :
      ReachFrom beh sessionId s t tr → Step beh sessionId t evs t2 →
      ReachFrom beh sessionId s t2 (tr ++ evs)

/-! ## Counters and the protocol invariant -/

/-- Event is a posted nextRunCycle message. -/
def isNextPost : Ev → Bool
  | .postHost (.nextRunCycle _) => true
  | _ => false

/-- Event is a resolution of a run-cycle handler promise. -/
def isResolveEv : Ev → Bool
  | .settle _ (some _) => true
  | _ => false

/-- Event is a rejection of a run-cycle handler promise. -/
def isRejectEv : Ev → Bool
  | .settle _ none => true
  | _ => false

/-- Event is a Command Handler invocation made by handleRunCycle. -/
def isCycleDispatch : Ev → Bool
  | .dispatch _ => true
  | _ => false

/-- Message is the initialise message. -/
def isInitialiseMsg : HostMsg → Bool
  | .initialise => true
  | _ => false

/-- Message is a run-cycle stimulus (firstRunCycle or nextRunCycle). -/
def isCycleStimulus : HostMsg → Bool
  | .firstRunCycle _ => true
  | .nextRunCycle _ => true
  | _ => false

/-- Message is initialiseDone. -/
def isInitDoneMsg : WorkerMsg → Bool
  | .initialiseDone => true
  | _ => false

/-- Message is a runCycleDone message. -/
def isRunCycleDoneMsg : WorkerMsg → Bool
  | .runCycleDone _ => true
  | _ => false

/-- Nat value of a Bool. -/
def b2n : Bool → Nat
  | true => 1
  | false => 0

/-- Bool test for the resolvedPending phase. -/
def isResolvedPendingB : InitPhase → Bool
  | .resolvedPending => true
  | _ => false

/-- Number of initialisation tokens in flight: the initialise message, the
pending initialise() promise, the initialiseDone message, and the pending
initialisation continuation. -/
def tokInit (s : Sys) : Nat :=
  s.q_hw.countP isInitialiseMsg + b2n s.worker.initPending
    + s.q_wh.countP isInitDoneMsg + b2n (isResolvedPendingB s.engine.initPhase)

/-- Number of run-cycle tokens in flight: cycle stimuli in the host-to-worker
queue, pending unwrap promises, runCycleDone messages in the worker-to-host
queue, and pending run-cycle handler promises. -/
def tokCycle (s : Sys) : Nat :=
  s.q_hw.countP isCycleStimulus + s.worker.unwrapPending.length
    + s.q_wh.countP isRunCycleDoneMsg + s.engine.pendingCycle.length

/-- Event belongs to the initialisation handshake. -/
def isInitEv : Ev → Bool
  | .postHost .initialise => true
  | .postWorker .initialiseDone => true
  | .dispatchFF (.systemEvent _) => true
  | .postHost (.firstRunCycle _) => true
  | _ => false

/-- The initialisation handshake subtrace of a trace. -/
def initTrace (tr : List Ev) : List Ev := tr.filter isInitEv

/-- The complete initialisation handshake, in order. -/
def fullInitList (sessionId : String) : List Ev :=
  [Ev.postHost HostMsg.initialise,
   Ev.postWorker WorkerMsg.initialiseDone,
   Ev.dispatchFF (sendSystemEvent "initialized"),
   Ev.postHost (HostMsg.firstRunCycle sessionId)]

/-- How far the initialisation handshake has progressed, measured as the
length of its expected subtrace. -/
def stageLen (s : Sys) : Nat :=
  match s.engine.initPhase with
  | .idle => 0
  | .waiting => if s.q_wh.countP isInitDoneMsg = 0 then 1 else 2
  | .resolvedPending => 2
  | .done => 4

/-- The protocol invariant of every reachable state and trace. -/
structure Inv (sessionId : String) (s : Sys) (tr : List Ev) : Prop where
  notIdle : s.engine.initPhase ≠ InitPhase.idle
  tokW : s.engine.initPhase = InitPhase.waiting → tokInit s = 1
  tokR : s.engine.initPhase = InitPhase.resolvedPending → tokInit s = 1
  tokD : s.engine.initPhase = InitPhase.done → tokInit s = 0
  tokLe : tokInit s + tokCycle s ≤ 1
  initT : initTrace tr = (fullInitList sessionId).take (stageLen s)
  nextEq : tr.countP isNextPost = tr.countP isResolveEv
  acct : tr.countP isResolveEv + tr.countP isRejectEv + s.engine.pendingCycle.length
          = tr.countP isCycleDispatch

/-- A quiescent system: nothing queued and no asynchronous computation
pending apart from fire-and-forget handler promises. -/
def Stalled (s : Sys) : Prop :=
  s.q_hw = [] ∧ s.q_wh = [] ∧ s.worker.initPending = false
    ∧ s.worker.unwrapPending = [] ∧ s.engine.pendingCycle = []
    ∧ s.engine.initPhase ≠ InitPhase.resolvedPending

/-! ## Donation page rendering (src/unnamed/part_001) -/

/-- The page body handed to DonationPage.  The five recognized prompt
variants, plus any body of an unrecognized type kept by its tag. -/
inductive PromptBody where
  | fileInput (description : String)
  | confirm (text : String)
  | consentForm (tables : String)
  | radioInput (question : String)
  | questionnaire (questions : String)
  | unknown (tag : String)
deriving DecidableEq

/-- Modelled from the spec: type guard isPropsUIPromptFileInput of
src/framework/types/prompts.ts (not under src/). -/
def isPropsUIPromptFileInput : PromptBody → Bool
  | .fileInput _ => true
  | _ => false

/-- Modelled from the spec: type guard isPropsUIPromptConfirm of
src/framework/types/prompts.ts (not under src/). -/
def isPropsUIPromptConfirm : PromptBody → Bool
  | .confirm _ => true
  | _ => false

/-- Modelled from the spec: type guard isPropsUIPromptConsentForm of
src/framework/types/prompts.ts (not under src/). -/
def isPropsUIPromptConsentForm : PromptBody → Bool
  | .consentForm _ => true
  | _ => false

/-- Modelled from the spec: type guard isPropsUIPromptRadioInput of
src/framework/types/prompts.ts (not under src/). -/
def isPropsUIPromptRadioInput : PromptBody → Bool
  | .radioInput _ => true
  | _ => false

/-- Modelled from the spec: type guard isPropsUIPromptQuestionnaire of
src/framework/types/prompts.ts (not under src/). -/
def isPropsUIPromptQuestionnaire : PromptBody → Bool
  | .questionnaire _ => true
  | _ => false

/-- The rendered prompt component, carrying the body whose props it was
given. -/
inductive RenderedPrompt where
  | fileInput (b : PromptBody)
  | confirm (b : PromptBody)
  | consentForm (b : PromptBody)
  | radioInput (b : PromptBody)
  | questionnaire (b : PromptBody)
deriving DecidableEq

/-- renderBody (part_001 lines 24 to 43): tries the five type guards in
source order and renders the matching prompt component; if none matches it
throws TypeError with message "Unknown body type". -/
def renderBody (b : PromptBody) : Except String RenderedPrompt :=
  if isPropsUIPromptFileInput b then Except.ok (RenderedPrompt.fileInput b)
  else if isPropsUIPromptConfirm b then Except.ok (RenderedPrompt.confirm b)
  else if isPropsUIPromptConsentForm b then Except.ok (RenderedPrompt.consentForm b)
  else if isPropsUIPromptRadioInput b then Except.ok (RenderedPrompt.radioInput b)
  else if isPropsUIPromptQuestionnaire b then Except.ok (RenderedPrompt.questionnaire b)
  else Except.error "Unknown body type"

/-! ## Function-level claim theorems -/

/-- C2: unwrapping a Response with an absent payload passes the empty payload
downstream unchanged; unwrapping a string payload passes it unchanged;
unwrapping a file payload materializes the file of that name into the
worker filesystem and yields the path string under /file-input; in
particular a file named data.json yields /file-input/data.json. -/
theorem unwrap_payload_semantics :
    (∀ fs v, unwrap fs { payload := Payload.string v } = (fs, Payload.string v))
    ∧ (∀ fs, unwrap fs { payload := Payload.void } = (fs, Payload.void))
    ∧ (∀ fs name, unwrap fs { payload := Payload.file name }
        = ([name], Payload.string ("/file-input" ++ "/" ++ name)))
    ∧ unwrap [] { payload := Payload.file "data.json" }
        = (["data.json"], Payload.string "/file-input/data.json") :=
  ⟨fun _ _ => rfl, fun _ => rfl, fun _ _ => rfl, by decide⟩

/-- C5: when the script raises while being advanced, runCycle catches the
fault and still produces a runCycleDone message whose scriptEvent is a
CommandUIRender carrying the error page with the textual description of the
failure, and that scriptEvent is a recognized Command, so the cycle
completes and a Response is still expected. -/
theorem script_fault_renders_error_page (beh : ScriptBeh) (w : WorkerState)
    (input : Option Payload) (sid msg : String)
    (hs : w.script = some sid) (hb : beh w.scriptCtr input = Except.error msg) :
    runCycle beh w input
      = ({ w with scriptCtr := w.scriptCtr + 1 },
         WorkerMsg.runCycleDone (ScriptEvent.cmd (Command.uiRender (Page.error msg))))
    ∧ isCommand (generateErrorMessage msg) = true := by
  refine ⟨?_, rfl⟩
  unfold runCycle
  rw [hs, hb]
  rfl

/-- Witness for script_fault_renders_error_page at a concrete state. -/
theorem script_fault_renders_error_page_witness :
    runCycle (fun _ _ => Except.error "boom")
        { script := some "abc123", scriptCtr := 0, initPending := false,
          unwrapPending := [], fs := [] } none
      = ({ script := some "abc123", scriptCtr := 1, initPending := false,
           unwrapPending := [], fs := [] },
         WorkerMsg.runCycleDone (ScriptEvent.cmd (Command.uiRender (Page.error "boom"))))
    ∧ isCommand (generateErrorMessage "boom") = true :=
  script_fault_renders_error_page (fun _ _ => Except.error "boom")
    { script := some "abc123", scriptCtr := 0, initPending := false,
      unwrapPending := [], fs := [] } none "abc123" "boom" rfl rfl

/-- C7: on firstRunCycle with a session identifier, the worker starts the
script bound to that session id, resumes it with no input, and reports the
first yielded Command in a single runCycleDone message. -/
theorem first_run_cycle_starts_script (beh : ScriptBeh) (w : WorkerState)
    (sid : String) (ev : ScriptEvent)
    (hb : beh w.scriptCtr none = Except.ok ev) :
    workerOnMessage beh w (HostMsg.firstRunCycle sid)
      = ({ w with script := some sid, scriptCtr := w.scriptCtr + 1 },
         [Ev.postWorker (WorkerMsg.runCycleDone ev)]) := by
  simp only [workerOnMessage, runCycle, hb]

/-- Witness for first_run_cycle_starts_script at a concrete state. -/
theorem first_run_cycle_starts_script_witness :
    workerOnMessage (fun _ _ => Except.ok (ScriptEvent.cmd (Command.uiRender (Page.other "p"))))
        initWorker (HostMsg.firstRunCycle "abc123")
      = ({ initWorker with script := some "abc123", scriptCtr := 1 },
         [Ev.postWorker (WorkerMsg.runCycleDone
            (ScriptEvent.cmd (Command.uiRender (Page.other "p"))))]) :=
  first_run_cycle_starts_script
    (fun _ _ => Except.ok (ScriptEvent.cmd (Command.uiRender (Page.other "p"))))
    initWorker "abc123" (ScriptEvent.cmd (Command.uiRender (Page.other "p"))) rfl

/-- C8: renderBody discriminates the body among exactly the five recognized
prompt variants, rendering the corresponding prompt component for each, and
raises the fatal error for a body of any unrecognized type. -/
theorem render_body_discrimination :
    (∀ d, renderBody (PromptBody.fileInput d)
        = Except.ok (RenderedPrompt.fileInput (PromptBody.fileInput d)))
    ∧ (∀ t, renderBody (PromptBody.confirm t)
        = Except.ok (RenderedPrompt.confirm (PromptBody.confirm t)))
    ∧ (∀ t, renderBody (PromptBody.consentForm t)
        = Except.ok (RenderedPrompt.consentForm (PromptBody.consentForm t)))
    ∧ (∀ q, renderBody (PromptBody.radioInput q)
        = Except.ok (RenderedPrompt.radioInput (PromptBody.radioInput q)))
    ∧ (∀ q, renderBody (PromptBody.questionnaire q)
        = Except.ok (RenderedPrompt.questionnaire (PromptBody.questionnaire q)))
    ∧ (∀ t, renderBody (PromptBody.unknown t) = Except.error "Unknown body type") :=
  ⟨fun _ => rfl, fun _ => rfl, fun _ => rfl, fun _ => rfl, fun _ => rfl, fun _ => rfl⟩

/-- C9: engine construction dispatches exactly one CommandSystemDonate to
the Command Handler, with key the session id followed by "-tracking" and
json_string the serialized user-started object, posts no message to the
worker yet (start has not run), and the settlement of a fire-and-forget
handler promise, resolution or rejection alike, has no observable effect. -/
theorem construction_dispatches_tracking_donate (sid : String) :
    (engineConstruct sid).2
      = [Ev.dispatchFF (Command.systemDonate (sid ++ "-tracking")
          "\x7b\"message\":\"user started\"\x7d")]
    ∧ hostPosts (engineConstruct sid).2 = []
    ∧ (engineConstruct sid).1.initPhase = InitPhase.idle
    ∧ (∀ e l1 l2 c, settleFF e l1 l2 c = ({ e with pendingFF := l1 ++ l2 }, ([] : List Ev))) :=
  ⟨rfl, rfl, rfl, fun _ _ _ _ => rfl⟩

/-- C10: an incoming message of an unrecognized eventType is silently
ignored on both sides: the engine performs no state change, posts nothing
and invokes no handler, and so does the worker. -/
theorem unknown_events_ignored :
    (∀ e t, handleEvent e (WorkerMsg.unknown t) = (e, ([] : List Ev)))
    ∧ (∀ (beh : ScriptBeh) w t, workerOnMessage beh w (HostMsg.unknown t) = (w, ([] : List Ev))) :=
  ⟨fun _ _ => rfl, fun _ _ _ => rfl⟩

/-! ## Trace invariant machinery for the temporal claims -/

theorem hostPosts_append (l1 l2 : List Ev) :
    hostPosts (l1 ++ l2) = hostPosts l1 ++ hostPosts l2 := by
  induction l1 with
  | nil => rfl
  | cons e es ih => cases e <;> simp [hostPosts, ih]

theorem workerPosts_append (l1 l2 : List Ev) :
    workerPosts (l1 ++ l2) = workerPosts l1 ++ workerPosts l2 := by
  induction l1 with
  | nil => rfl
  | cons e es ih => cases e <;> simp [workerPosts, ih]

theorem runCycle_shape (beh : ScriptBeh) (w : WorkerState) (input : Option Payload) :
    ∃ ev, (runCycle beh w input).2 = WorkerMsg.runCycleDone ev
      ∧ (runCycle beh w input).1.unwrapPending = w.unwrapPending
      ∧ (runCycle beh w input).1.initPending = w.initPending := by
  unfold runCycle
  rcases hs : w.script with _ | sid
  · exact ⟨_, rfl, rfl, rfl⟩
  · rcases hb : beh w.scriptCtr input with e | ev
    · exact ⟨_, rfl, rfl, rfl⟩
    · exact ⟨ev, rfl, rfl, rfl⟩

theorem phase_done_of_tokCycle (sid : String) (s : Sys) (tr : List Ev) (hInv : Inv sid s tr)
    (h : 1 ≤ tokCycle s) : s.engine.initPhase = InitPhase.done ∧ tokInit s = 0 := by
  rcases hph : s.engine.initPhase
  · exact absurd hph hInv.notIdle
  · have h1 := hInv.tokW hph
    have h2 := hInv.tokLe
    omega
  · have h1 := hInv.tokR hph
    have h2 := hInv.tokLe
    omega
  · exact ⟨rfl, hInv.tokD hph⟩


theorem countP_cons_true {q : Type} (p : q → Bool) (a : q) (l : List q) (h : p a = true) :
    (a :: l).countP p = l.countP p + 1 := by
  simp [List.countP_cons, h]

theorem countP_cons_false {q : Type} (p : q → Bool) (a : q) (l : List q) (h : p a = false) :
    (a :: l).countP p = l.countP p := by
  simp [List.countP_cons, h]

theorem countP_app_true {q : Type} (p : q → Bool) (a : q) (l : List q) (h : p a = true) :
    (l ++ [a]).countP p = l.countP p + 1 := by
  simp [List.countP_append, List.countP_cons, h]

theorem countP_app_false {q : Type} (p : q → Bool) (a : q) (l : List q) (h : p a = false) :
    (l ++ [a]).countP p = l.countP p := by
  simp [List.countP_append, List.countP_cons, h]

theorem preserve_deliverWH (beh : ScriptBeh) (sid : String) (s : Sys) (tr : List Ev)
    (m : WorkerMsg) (rest : List WorkerMsg) (e2 : EngineState) (evs : List Ev)
    (hInv : Inv sid s tr) (hq : s.q_wh = m :: rest)
    (hh : handleEvent s.engine m = (e2, evs)) :
    Inv sid { engine := e2, worker := s.worker,
              q_hw := s.q_hw ++ hostPosts evs, q_wh := rest ++ workerPosts evs } (tr ++ evs) := by
  obtain ⟨⟨ph, pc, pf⟩, ⟨scr, ctr, ip, up, fsv⟩, qhw, qwh⟩ := s
  obtain ⟨hIdle, hW, hR, hD, hLe, hIT, hNE, hAC⟩ := hInv
  simp only at hq hh hIdle hW hR hD hLe hIT hNE hAC
  subst hq
  cases m with
  | initialiseDone =>
    simp only [handleEvent, Prod.mk.injEq] at hh
    obtain ⟨he2, hevs⟩ := hh
    subst he2; subst hevs
    cases ph with
    | idle => exact absurd rfl hIdle
    | waiting =>
      have hti := hW rfl
      simp only [tokInit, tokCycle, b2n, isResolvedPendingB, countP_cons_true, countP_cons_false,
        isInitDoneMsg, isRunCycleDoneMsg, isInitialiseMsg, isCycleStimulus] at hti hLe
      refine ⟨by simp [resolveInitialized], by simp [resolveInitialized], ?_,
        by simp [resolveInitialized], ?_, ?_, by simpa using hNE,
        by simpa [resolveInitialized] using hAC⟩
      · intro _
        simp only [resolveInitialized, tokInit, b2n, isResolvedPendingB, hostPosts, workerPosts,
          List.append_nil]
        omega
      · simp only [resolveInitialized, tokInit, tokCycle, b2n, isResolvedPendingB, hostPosts,
          workerPosts, List.append_nil]
        omega
      · simp only [resolveInitialized, stageLen, countP_cons_true, isInitDoneMsg,
          initTrace, hostPosts, workerPosts, List.append_nil] at hIT ⊢
        simpa using hIT
    | resolvedPending =>
      have hti := hR rfl
      simp only [tokInit, b2n, isResolvedPendingB, countP_cons_true, isInitDoneMsg] at hti
      omega
    | done =>
      have hti := hD rfl
      simp only [tokInit, b2n, isResolvedPendingB, countP_cons_true, isInitDoneMsg] at hti
      omega
  | runCycleDone ev =>
    have hcnt : (WorkerMsg.runCycleDone ev :: rest).countP isRunCycleDoneMsg
        = rest.countP isRunCycleDoneMsg + 1 := countP_cons_true _ _ _ rfl
    have hcni : (WorkerMsg.runCycleDone ev :: rest).countP isInitDoneMsg
        = rest.countP isInitDoneMsg := countP_cons_false _ _ _ rfl
    cases ph with
    | idle => exact absurd rfl hIdle
    | waiting =>
      have hti := hW rfl
      simp only [tokInit, tokCycle, b2n, isResolvedPendingB, hcnt, hcni] at hti hLe
      omega
    | resolvedPending =>
      have hti := hR rfl
      simp only [tokInit, tokCycle, b2n, isResolvedPendingB, hcnt, hcni] at hti hLe
      omega
    | done =>
      have hti := hD rfl
      simp only [tokInit, tokCycle, b2n, isResolvedPendingB, hcnt, hcni] at hti hLe
      rcases hac : asCommand ev with _ | c
      · simp only [handleEvent, handleRunCycle, hac, Prod.mk.injEq] at hh
        obtain ⟨he2, hevs⟩ := hh
        subst he2; subst hevs
        refine ⟨by simp, by simp, by simp, ?_, ?_, ?_, by simpa using hNE, by simpa using hAC⟩
        · intro _
          simp only [tokInit, b2n, isResolvedPendingB, hostPosts, workerPosts, List.append_nil]
          omega
        · simp only [tokInit, tokCycle, b2n, isResolvedPendingB, hostPosts, workerPosts,
            List.append_nil]
          omega
        · simpa [stageLen, initTrace] using hIT
      · simp only [handleEvent, handleRunCycle, hac, Prod.mk.injEq] at hh
        obtain ⟨he2, hevs⟩ := hh
        subst he2; subst hevs
        refine ⟨by simp, by simp, by simp, ?_, ?_, ?_, ?_, ?_⟩
        · intro _
          simp only [tokInit, b2n, isResolvedPendingB, hostPosts, workerPosts, List.append_nil]
          omega
        · simp only [tokInit, tokCycle, b2n, isResolvedPendingB, hostPosts, workerPosts,
            List.append_nil, List.length_append, List.length_cons, List.length_nil]
          omega
        · simp only [stageLen, initTrace, List.filter_append] at hIT ⊢
          simpa [isInitEv] using hIT
        · simp only [List.countP_append, countP_cons_true, countP_cons_false, List.countP_nil,
            isNextPost, isResolveEv]
          simpa using hNE
        · simp only [List.countP_append, countP_cons_true, countP_cons_false, List.countP_nil,
            isResolveEv, isRejectEv, isCycleDispatch, List.length_append, List.length_cons,
            List.length_nil] at hAC ⊢
          omega
  | unknown t =>
    have hcnt : (WorkerMsg.unknown t :: rest).countP isRunCycleDoneMsg
        = rest.countP isRunCycleDoneMsg := countP_cons_false _ _ _ rfl
    have hcni : (WorkerMsg.unknown t :: rest).countP isInitDoneMsg
        = rest.countP isInitDoneMsg := countP_cons_false _ _ _ rfl
    simp only [handleEvent, Prod.mk.injEq] at hh
    obtain ⟨he2, hevs⟩ := hh
    subst he2; subst hevs
    cases ph with
    | idle => exact absurd rfl hIdle
    | waiting =>
      have hti := hW rfl
      simp only [tokInit, tokCycle, b2n, isResolvedPendingB, hcnt, hcni] at hti hLe
      refine ⟨by simp, ?_, by simp, by simp, ?_, ?_, by simpa using hNE, by simpa using hAC⟩
      · intro _
        simp only [tokInit, b2n, isResolvedPendingB, hostPosts, workerPosts, List.append_nil]
        omega
      · simp only [tokInit, tokCycle, b2n, isResolvedPendingB, hostPosts, workerPosts,
          List.append_nil]
        omega
      · simp only [stageLen, hcni, initTrace, hostPosts, workerPosts, List.append_nil] at hIT ⊢
        simpa using hIT
    | resolvedPending =>
      have hti := hR rfl
      simp only [tokInit, tokCycle, b2n, isResolvedPendingB, hcnt, hcni] at hti hLe
      refine ⟨by simp, by simp, ?_, by simp, ?_, ?_, by simpa using hNE, by simpa using hAC⟩
      · intro _
        simp only [tokInit, b2n, isResolvedPendingB, hostPosts, workerPosts, List.append_nil]
        omega
      · simp only [tokInit, tokCycle, b2n, isResolvedPendingB, hostPosts, workerPosts,
          List.append_nil]
        omega
      · simpa [stageLen, initTrace] using hIT
    | done =>
      have hti := hD rfl
      simp only [tokInit, tokCycle, b2n, isResolvedPendingB, hcnt, hcni] at hti hLe
      refine ⟨by simp, by simp, by simp, ?_, ?_, ?_, by simpa using hNE, by simpa using hAC⟩
      · intro _
        simp only [tokInit, b2n, isResolvedPendingB, hostPosts, workerPosts, List.append_nil]
        omega
      · simp only [tokInit, tokCycle, b2n, isResolvedPendingB, hostPosts, workerPosts,
          List.append_nil]
        omega
      · simpa [stageLen, initTrace] using hIT

theorem preserve_deliverHW (beh : ScriptBeh) (sid : String) (s : Sys) (tr : List Ev)
    (m : HostMsg) (rest : List HostMsg) (w2 : WorkerState) (evs : List Ev)
    (hInv : Inv sid s tr) (hq : s.q_hw = m :: rest)
    (hh : workerOnMessage beh s.worker m = (w2, evs)) :
    Inv sid { engine := s.engine, worker := w2,
              q_hw := rest ++ hostPosts evs, q_wh := s.q_wh ++ workerPosts evs } (tr ++ evs) := by
  obtain ⟨⟨ph, pc, pf⟩, ⟨scr, ctr, ip, up, fsv⟩, qhw, qwh⟩ := s
  obtain ⟨hIdle, hW, hR, hD, hLe, hIT, hNE, hAC⟩ := hInv
  simp only at hq hh hIdle hW hR hD hLe hIT hNE hAC
  subst hq
  cases m with
  | initialise =>
    have hc1 : (HostMsg.initialise :: rest).countP isInitialiseMsg
        = rest.countP isInitialiseMsg + 1 := countP_cons_true _ _ _ rfl
    have hc2 : (HostMsg.initialise :: rest).countP isCycleStimulus
        = rest.countP isCycleStimulus := countP_cons_false _ _ _ rfl
    simp only [workerOnMessage, Prod.mk.injEq] at hh
    obtain ⟨hw2, hevs⟩ := hh
    subst hw2; subst hevs
    cases ph with
    | idle => exact absurd rfl hIdle
    | waiting =>
      have hti := hW rfl
      simp only [tokInit, tokCycle, b2n, isResolvedPendingB, hc1, hc2] at hti hLe
      refine ⟨by simp, ?_, by simp, by simp, ?_, ?_, by simpa using hNE, by simpa using hAC⟩
      · intro _
        simp only [tokInit, b2n, isResolvedPendingB, hostPosts, workerPosts, List.append_nil]
        omega
      · simp only [tokInit, tokCycle, b2n, isResolvedPendingB, hostPosts, workerPosts,
          List.append_nil]
        omega
      · simp only [stageLen, initTrace, hostPosts, workerPosts, List.append_nil] at hIT ⊢
        exact hIT
    | resolvedPending =>
      have hti := hR rfl
      simp only [tokInit, b2n, isResolvedPendingB, hc1] at hti
      omega
    | done =>
      have hti := hD rfl
      simp only [tokInit, b2n, isResolvedPendingB, hc1] at hti
      omega
  | firstRunCycle sid2 =>
    have hc1 : (HostMsg.firstRunCycle sid2 :: rest).countP isInitialiseMsg
        = rest.countP isInitialiseMsg := countP_cons_false _ _ _ rfl
    have hc2 : (HostMsg.firstRunCycle sid2 :: rest).countP isCycleStimulus
        = rest.countP isCycleStimulus + 1 := countP_cons_true _ _ _ rfl
    simp only [workerOnMessage, Prod.mk.injEq] at hh
    obtain ⟨hw2, hevs⟩ := hh
    obtain ⟨ev, hm, hup2, hip2⟩ :=
      runCycle_shape beh (WorkerState.mk (some sid2) ctr ip up fsv) none
    rw [hm] at hevs
    subst hw2; subst hevs
    cases ph with
    | idle => exact absurd rfl hIdle
    | waiting =>
      have hti := hW rfl
      simp only [tokInit, tokCycle, b2n, isResolvedPendingB, hc1, hc2] at hti hLe
      omega
    | resolvedPending =>
      have hti := hR rfl
      simp only [tokInit, tokCycle, b2n, isResolvedPendingB, hc1, hc2] at hti hLe
      omega
    | done =>
      have hti := hD rfl
      simp only [tokInit, tokCycle, b2n, isResolvedPendingB, hc1, hc2] at hti hLe
      refine ⟨by simp, by simp, by simp, ?_, ?_, ?_, ?_, ?_⟩
      · intro _
        simp only [tokInit, b2n, isResolvedPendingB, hostPosts, workerPosts, List.append_nil,
          countP_app_true, countP_app_false, isInitDoneMsg, isRunCycleDoneMsg, hip2]
        omega
      · simp only [tokInit, tokCycle, b2n, isResolvedPendingB, hostPosts, workerPosts,
          List.append_nil, countP_app_true, countP_app_false, isInitDoneMsg, isRunCycleDoneMsg,
          hip2, hup2]
        omega
      · simp only [stageLen, initTrace, List.filter_append, hostPosts, workerPosts,
          List.append_nil] at hIT ⊢
        simpa [isInitEv] using hIT
      · simp only [List.countP_append, countP_cons_true, countP_cons_false, List.countP_nil,
          isNextPost, isResolveEv]
        simpa using hNE
      · simp only [List.countP_append, countP_cons_true, countP_cons_false, List.countP_nil,
          isResolveEv, isRejectEv, isCycleDispatch] at hAC ⊢
        simpa using hAC
  | nextRunCycle r =>
    have hc1 : (HostMsg.nextRunCycle r :: rest).countP isInitialiseMsg
        = rest.countP isInitialiseMsg := countP_cons_false _ _ _ rfl
    have hc2 : (HostMsg.nextRunCycle r :: rest).countP isCycleStimulus
        = rest.countP isCycleStimulus + 1 := countP_cons_true _ _ _ rfl
    simp only [workerOnMessage, Prod.mk.injEq] at hh
    obtain ⟨hw2, hevs⟩ := hh
    subst hw2; subst hevs
    cases ph with
    | idle => exact absurd rfl hIdle
    | waiting =>
      have hti := hW rfl
      simp only [tokInit, tokCycle, b2n, isResolvedPendingB, hc1, hc2] at hti hLe
      omega
    | resolvedPending =>
      have hti := hR rfl
      simp only [tokInit, tokCycle, b2n, isResolvedPendingB, hc1, hc2] at hti hLe
      omega
    | done =>
      have hti := hD rfl
      simp only [tokInit, tokCycle, b2n, isResolvedPendingB, hc1, hc2] at hti hLe
      refine ⟨by simp, by simp, by simp, ?_, ?_, ?_, by simpa using hNE, by simpa using hAC⟩
      · intro _
        simp only [tokInit, b2n, isResolvedPendingB, hostPosts, workerPosts, List.append_nil]
        omega
      · simp only [tokInit, tokCycle, b2n, isResolvedPendingB, hostPosts, workerPosts,
          List.append_nil, List.length_append, List.length_cons, List.length_nil]
        omega
      · simpa [stageLen, initTrace] using hIT
  | unknown t =>
    have hc1 : (HostMsg.unknown t :: rest).countP isInitialiseMsg
        = rest.countP isInitialiseMsg := countP_cons_false _ _ _ rfl
    have hc2 : (HostMsg.unknown t :: rest).countP isCycleStimulus
        = rest.countP isCycleStimulus := countP_cons_false _ _ _ rfl
    simp only [workerOnMessage, Prod.mk.injEq] at hh
    obtain ⟨hw2, hevs⟩ := hh
    subst hw2; subst hevs
    cases ph with
    | idle => exact absurd rfl hIdle
    | waiting =>
      have hti := hW rfl
      simp only [tokInit, tokCycle, b2n, isResolvedPendingB, hc1, hc2] at hti hLe
      refine ⟨by simp, ?_, by simp, by simp, ?_, ?_, by simpa using hNE, by simpa using hAC⟩
      · intro _
        simp only [tokInit, b2n, isResolvedPendingB, hostPosts, workerPosts, List.append_nil]
        omega
      · simp only [tokInit, tokCycle, b2n, isResolvedPendingB, hostPosts, workerPosts,
          List.append_nil]
        omega
      · simp only [stageLen, initTrace, hostPosts, workerPosts, List.append_nil] at hIT ⊢
        exact hIT
    | resolvedPending =>
      have hti := hR rfl
      simp only [tokInit, tokCycle, b2n, isResolvedPendingB, hc1, hc2] at hti hLe
      refine ⟨by simp, by simp, ?_, by simp, ?_, ?_, by simpa using hNE, by simpa using hAC⟩
      · intro _
        simp only [tokInit, b2n, isResolvedPendingB, hostPosts, workerPosts, List.append_nil]
        omega
      · simp only [tokInit, tokCycle, b2n, isResolvedPendingB, hostPosts, workerPosts,
          List.append_nil]
        omega
      · simpa [stageLen, initTrace] using hIT
    | done =>
      have hti := hD rfl
      simp only [tokInit, tokCycle, b2n, isResolvedPendingB, hc1, hc2] at hti hLe
      refine ⟨by simp, by simp, by simp, ?_, ?_, ?_, by simpa using hNE, by simpa using hAC⟩
      · intro _
        simp only [tokInit, b2n, isResolvedPendingB, hostPosts, workerPosts, List.append_nil]
        omega
      · simp only [tokInit, tokCycle, b2n, isResolvedPendingB, hostPosts, workerPosts,
          List.append_nil]
        omega
      · simpa [stageLen, initTrace] using hIT

theorem preserve_cont (beh : ScriptBeh) (sid : String) (s : Sys) (tr : List Ev)
    (e2 : EngineState) (evs : List Ev)
    (hInv : Inv sid s tr) (hp : s.engine.initPhase = InitPhase.resolvedPending)
    (hh : onInitialized sid s.engine = (e2, evs)) :
    Inv sid { engine := e2, worker := s.worker,
              q_hw := s.q_hw ++ hostPosts evs, q_wh := s.q_wh ++ workerPosts evs } (tr ++ evs) := by
  obtain ⟨⟨ph, pc, pf⟩, ⟨scr, ctr, ip, up, fsv⟩, qhw, qwh⟩ := s
  obtain ⟨hIdle, hW, hR, hD, hLe, hIT, hNE, hAC⟩ := hInv
  simp only at hp hh hIdle hW hR hD hLe hIT hNE hAC
  subst hp
  simp only [onInitialized, Prod.mk.injEq] at hh
  obtain ⟨he2, hevs⟩ := hh
  subst he2; subst hevs
  have hti := hR rfl
  simp only [tokInit, tokCycle, b2n, isResolvedPendingB] at hti hLe
  refine ⟨by simp, by simp, by simp, ?_, ?_, ?_, ?_, ?_⟩
  · intro _
    simp only [tokInit, b2n, isResolvedPendingB, hostPosts, workerPosts, List.append_nil,
      countP_app_true, countP_app_false, isInitialiseMsg, isInitDoneMsg]
    omega
  · simp only [tokInit, tokCycle, b2n, isResolvedPendingB, hostPosts, workerPosts,
      List.append_nil, countP_app_true, countP_app_false, isInitialiseMsg, isCycleStimulus,
      isInitDoneMsg, isRunCycleDoneMsg]
    omega
  · simp only [stageLen, initTrace, List.filter_append] at hIT ⊢
    rw [hIT]
    simp [isInitEv, sendSystemEvent, fullInitList]
  · simp only [List.countP_append, countP_cons_true, countP_cons_false, List.countP_nil,
      isNextPost, isResolveEv]
    simpa using hNE
  · simp only [List.countP_append, countP_cons_true, countP_cons_false, List.countP_nil,
      isResolveEv, isRejectEv, isCycleDispatch] at hAC ⊢
    simpa using hAC

theorem preserve_initFin (beh : ScriptBeh) (sid : String) (s : Sys) (tr : List Ev)
    (w2 : WorkerState) (evs : List Ev)
    (hInv : Inv sid s tr) (hp : s.worker.initPending = true)
    (hh : workerInitDone s.worker = (w2, evs)) :
    Inv sid { engine := s.engine, worker := w2,
              q_hw := s.q_hw ++ hostPosts evs, q_wh := s.q_wh ++ workerPosts evs } (tr ++ evs) := by
  obtain ⟨⟨ph, pc, pf⟩, ⟨scr, ctr, ip, up, fsv⟩, qhw, qwh⟩ := s
  obtain ⟨hIdle, hW, hR, hD, hLe, hIT, hNE, hAC⟩ := hInv
  simp only at hp hh hIdle hW hR hD hLe hIT hNE hAC
  subst hp
  simp only [workerInitDone, Prod.mk.injEq] at hh
  obtain ⟨hw2, hevs⟩ := hh
  subst hw2; subst hevs
  cases ph with
  | idle => exact absurd rfl hIdle
  | waiting =>
    have hti := hW rfl
    simp only [tokInit, tokCycle, b2n, isResolvedPendingB] at hti hLe
    refine ⟨by simp, ?_, by simp, by simp, ?_, ?_, by simpa using hNE, by simpa using hAC⟩
    · intro _
      simp only [tokInit, b2n, isResolvedPendingB, hostPosts, workerPosts, List.append_nil,
        countP_app_true, countP_app_false, isInitDoneMsg]
      omega
    · simp only [tokInit, tokCycle, b2n, isResolvedPendingB, hostPosts, workerPosts,
        List.append_nil, countP_app_true, countP_app_false, isInitDoneMsg, isRunCycleDoneMsg]
      omega
    · have hz : qwh.countP isInitDoneMsg = 0 := by omega
      simp [stageLen, initTrace, List.filter_append, hz, countP_app_true, countP_app_false,
        isInitDoneMsg, isInitEv, fullInitList, hostPosts, workerPosts] at hIT ⊢
      simp [hIT]
  | resolvedPending =>
    have hti := hR rfl
    simp only [tokInit, b2n, isResolvedPendingB] at hti
    omega
  | done =>
    have hti := hD rfl
    simp only [tokInit, b2n, isResolvedPendingB] at hti
    omega

theorem preserve_unwrap (beh : ScriptBeh) (sid : String) (s : Sys) (tr : List Ev)
    (l1 l2 : List Response) (r : Response) (w2 : WorkerState) (evs : List Ev)
    (hInv : Inv sid s tr) (hp : s.worker.unwrapPending = l1 ++ r :: l2)
    (hh : workerUnwrapStep beh s.worker l1 l2 r = (w2, evs)) :
    Inv sid { engine := s.engine, worker := w2,
              q_hw := s.q_hw ++ hostPosts evs, q_wh := s.q_wh ++ workerPosts evs } (tr ++ evs) := by
  obtain ⟨⟨ph, pc, pf⟩, ⟨scr, ctr, ip, up, fsv⟩, qhw, qwh⟩ := s
  obtain ⟨hIdle, hW, hR, hD, hLe, hIT, hNE, hAC⟩ := hInv
  simp only at hp hh hIdle hW hR hD hLe hIT hNE hAC
  subst hp
  simp only [workerUnwrapStep, Prod.mk.injEq] at hh
  obtain ⟨hw2, hevs⟩ := hh
  obtain ⟨ev, hm, hup2, hip2⟩ :=
    runCycle_shape beh (WorkerState.mk scr ctr ip (l1 ++ l2) (unwrap fsv r).1)
      (some (unwrap fsv r).2)
  rw [hm] at hevs
  subst hw2; subst hevs
  have hlen : (l1 ++ r :: l2).length = l1.length + l2.length + 1 := by
    simp [List.length_append]
    omega
  cases ph with
  | idle => exact absurd rfl hIdle
  | waiting =>
    have hti := hW rfl
    simp only [tokInit, tokCycle, b2n, isResolvedPendingB, hlen] at hti hLe
    omega
  | resolvedPending =>
    have hti := hR rfl
    simp only [tokInit, tokCycle, b2n, isResolvedPendingB, hlen] at hti hLe
    omega
  | done =>
    have hti := hD rfl
    simp only [tokInit, tokCycle, b2n, isResolvedPendingB, hlen] at hti hLe
    refine ⟨by simp, by simp, by simp, ?_, ?_, ?_, ?_, ?_⟩
    · intro _
      simp only [tokInit, b2n, isResolvedPendingB, hostPosts, workerPosts, List.append_nil,
        countP_app_true, countP_app_false, isInitDoneMsg, isRunCycleDoneMsg, hip2]
      omega
    · simp only [tokInit, tokCycle, b2n, isResolvedPendingB, hostPosts, workerPosts,
        List.append_nil, countP_app_true, countP_app_false, isInitDoneMsg, isRunCycleDoneMsg,
        hip2, hup2, List.length_append]
      omega
    · simp only [stageLen, initTrace, List.filter_append, hostPosts, workerPosts,
        List.append_nil] at hIT ⊢
      simpa [isInitEv] using hIT
    · simp only [List.countP_append, countP_cons_true, countP_cons_false, List.countP_nil,
        isNextPost, isResolveEv]
      simpa using hNE
    · simp only [List.countP_append, countP_cons_true, countP_cons_false, List.countP_nil,
        isResolveEv, isRejectEv, isCycleDispatch] at hAC ⊢
      simpa using hAC

theorem preserve_resolve (beh : ScriptBeh) (sid : String) (s : Sys) (tr : List Ev)
    (l1 l2 : List Command) (c : Command) (r : Response) (e2 : EngineState) (evs : List Ev)
    (hInv : Inv sid s tr) (hp : s.engine.pendingCycle = l1 ++ c :: l2)
    (hh : cycleResolve s.engine l1 l2 c r = (e2, evs)) :
    Inv sid { engine := e2, worker := s.worker,
              q_hw := s.q_hw ++ hostPosts evs, q_wh := s.q_wh ++ workerPosts evs } (tr ++ evs) := by
  obtain ⟨⟨ph, pc, pf⟩, ⟨scr, ctr, ip, up, fsv⟩, qhw, qwh⟩ := s
  obtain ⟨hIdle, hW, hR, hD, hLe, hIT, hNE, hAC⟩ := hInv
  simp only at hp hh hIdle hW hR hD hLe hIT hNE hAC
  subst hp
  simp only [cycleResolve, Prod.mk.injEq] at hh
  obtain ⟨he2, hevs⟩ := hh
  subst he2; subst hevs
  have hlen : (l1 ++ c :: l2).length = l1.length + l2.length + 1 := by
    simp [List.length_append]
    omega
  cases ph with
  | idle => exact absurd rfl hIdle
  | waiting =>
    have hti := hW rfl
    simp only [tokInit, tokCycle, b2n, isResolvedPendingB, hlen] at hti hLe
    omega
  | resolvedPending =>
    have hti := hR rfl
    simp only [tokInit, tokCycle, b2n, isResolvedPendingB, hlen] at hti hLe
    omega
  | done =>
    have hti := hD rfl
    simp only [tokInit, tokCycle, b2n, isResolvedPendingB, hlen] at hti hLe
    refine ⟨by simp, by simp, by simp, ?_, ?_, ?_, ?_, ?_⟩
    · intro _
      simp only [tokInit, b2n, isResolvedPendingB, hostPosts, workerPosts, List.append_nil,
        countP_app_true, countP_app_false, isInitialiseMsg, isInitDoneMsg]
      omega
    · simp only [tokInit, tokCycle, b2n, isResolvedPendingB, hostPosts, workerPosts,
        List.append_nil, countP_app_true, countP_app_false, isInitialiseMsg, isCycleStimulus,
        isInitDoneMsg, isRunCycleDoneMsg, List.length_append]
      omega
    · simp only [stageLen, initTrace, List.filter_append, hostPosts, workerPosts,
        List.append_nil] at hIT ⊢
      simpa [isInitEv] using hIT
    · simp only [List.countP_append, countP_cons_true, countP_cons_false, List.countP_nil,
        isNextPost, isResolveEv] at hNE ⊢
      omega
    · simp only [List.countP_append, countP_cons_true, countP_cons_false, List.countP_nil,
        isResolveEv, isRejectEv, isCycleDispatch, List.length_append, List.length_cons] at hAC ⊢
      omega

theorem preserve_reject (beh : ScriptBeh) (sid : String) (s : Sys) (tr : List Ev)
    (l1 l2 : List Command) (c : Command) (e2 : EngineState) (evs : List Ev)
    (hInv : Inv sid s tr) (hp : s.engine.pendingCycle = l1 ++ c :: l2)
    (hh : cycleReject s.engine l1 l2 c = (e2, evs)) :
    Inv sid { engine := e2, worker := s.worker,
              q_hw := s.q_hw ++ hostPosts evs, q_wh := s.q_wh ++ workerPosts evs } (tr ++ evs) := by
  obtain ⟨⟨ph, pc, pf⟩, ⟨scr, ctr, ip, up, fsv⟩, qhw, qwh⟩ := s
  obtain ⟨hIdle, hW, hR, hD, hLe, hIT, hNE, hAC⟩ := hInv
  simp only at hp hh hIdle hW hR hD hLe hIT hNE hAC
  subst hp
  simp only [cycleReject, Prod.mk.injEq] at hh
  obtain ⟨he2, hevs⟩ := hh
  subst he2; subst hevs
  have hlen : (l1 ++ c :: l2).length = l1.length + l2.length + 1 := by
    simp [List.length_append]
    omega
  cases ph with
  | idle => exact absurd rfl hIdle
  | waiting =>
    have hti := hW rfl
    simp only [tokInit, tokCycle, b2n, isResolvedPendingB, hlen] at hti hLe
    omega
  | resolvedPending =>
    have hti := hR rfl
    simp only [tokInit, tokCycle, b2n, isResolvedPendingB, hlen] at hti hLe
    omega
  | done =>
    have hti := hD rfl
    simp only [tokInit, tokCycle, b2n, isResolvedPendingB, hlen] at hti hLe
    refine ⟨by simp, by simp, by simp, ?_, ?_, ?_, ?_, ?_⟩
    · intro _
      simp only [tokInit, b2n, isResolvedPendingB, hostPosts, workerPosts, List.append_nil]
      omega
    · simp only [tokInit, tokCycle, b2n, isResolvedPendingB, hostPosts, workerPosts,
        List.append_nil, List.length_append]
      omega
    · simp only [stageLen, initTrace, List.filter_append, hostPosts, workerPosts,
        List.append_nil] at hIT ⊢
      simpa [isInitEv] using hIT
    · simp only [List.countP_append, countP_cons_true, countP_cons_false, List.countP_nil,
        isNextPost, isResolveEv] at hNE ⊢
      omega
    · simp only [List.countP_append, countP_cons_true, countP_cons_false, List.countP_nil,
        isResolveEv, isRejectEv, isCycleDispatch, List.length_append, List.length_cons] at hAC ⊢
      omega

theorem preserve_ff (beh : ScriptBeh) (sid : String) (s : Sys) (tr : List Ev)
    (l1 l2 : List Command) (c : Command) (e2 : EngineState) (evs : List Ev)
    (hInv : Inv sid s tr) (hp : s.engine.pendingFF = l1 ++ c :: l2)
    (hh : settleFF s.engine l1 l2 c = (e2, evs)) :
    Inv sid { engine := e2, worker := s.worker,
              q_hw := s.q_hw ++ hostPosts evs, q_wh := s.q_wh ++ workerPosts evs } (tr ++ evs) := by
  obtain ⟨⟨ph, pc, pf⟩, ⟨scr, ctr, ip, up, fsv⟩, qhw, qwh⟩ := s
  obtain ⟨hIdle, hW, hR, hD, hLe, hIT, hNE, hAC⟩ := hInv
  simp only at hp hh hIdle hW hR hD hLe hIT hNE hAC
  subst hp
  simp only [settleFF, Prod.mk.injEq] at hh
  obtain ⟨he2, hevs⟩ := hh
  subst he2; subst hevs
  cases ph with
  | idle => exact absurd rfl hIdle
  | waiting =>
    have hti := hW rfl
    simp only [tokInit, tokCycle, b2n, isResolvedPendingB] at hti hLe
    refine ⟨by simp, ?_, by simp, by simp, ?_, ?_, by simpa using hNE, by simpa using hAC⟩
    · intro _
      simp only [tokInit, b2n, isResolvedPendingB, hostPosts, workerPosts, List.append_nil]
      omega
    · simp only [tokInit, tokCycle, b2n, isResolvedPendingB, hostPosts, workerPosts,
        List.append_nil]
      omega
    · simp only [stageLen, initTrace, hostPosts, workerPosts, List.append_nil] at hIT ⊢
      exact hIT
  | resolvedPending =>
    have hti := hR rfl
    simp only [tokInit, tokCycle, b2n, isResolvedPendingB] at hti hLe
    refine ⟨by simp, by simp, ?_, by simp, ?_, ?_, by simpa using hNE, by simpa using hAC⟩
    · intro _
      simp only [tokInit, b2n, isResolvedPendingB, hostPosts, workerPosts, List.append_nil]
      omega
    · simp only [tokInit, tokCycle, b2n, isResolvedPendingB, hostPosts, workerPosts,
        List.append_nil]
      omega
    · simpa [stageLen, initTrace] using hIT
  | done =>
    have hti := hD rfl
    simp only [tokInit, tokCycle, b2n, isResolvedPendingB] at hti hLe
    refine ⟨by simp, by simp, by simp, ?_, ?_, ?_, by simpa using hNE, by simpa using hAC⟩
    · intro _
      simp only [tokInit, b2n, isResolvedPendingB, hostPosts, workerPosts, List.append_nil]
      omega
    · simp only [tokInit, tokCycle, b2n, isResolvedPendingB, hostPosts, workerPosts,
        List.append_nil]
      omega
    · simpa [stageLen, initTrace] using hIT

theorem step_preserves (beh : ScriptBeh) (sid : String) (s : Sys) (tr evs : List Ev) (s2 : Sys)
    (hInv : Inv sid s tr) (hs : Step beh sid s evs s2) : Inv sid s2 (tr ++ evs) := by
  cases hs with
  | deliverWorkerToHost m rest e2 evs hq hh =>
    exact preserve_deliverWH beh sid s tr m rest e2 evs hInv hq hh
  | deliverHostToWorker m rest w2 evs hq hh =>
    exact preserve_deliverHW beh sid s tr m rest w2 evs hInv hq hh
  | engineInitCont e2 evs hp hh =>
    exact preserve_cont beh sid s tr e2 evs hInv hp hh
  | workerInitFinish w2 evs hp hh =>
    exact preserve_initFin beh sid s tr w2 evs hInv hp hh
  | workerUnwrapFinish l1 l2 r w2 evs hp hh =>
    exact preserve_unwrap beh sid s tr l1 l2 r w2 evs hInv hp hh
  | handlerResolve l1 l2 c r e2 evs hp hh =>
    exact preserve_resolve beh sid s tr l1 l2 c r e2 evs hInv hp hh
  | handlerReject l1 l2 c e2 evs hp hh =>
    exact preserve_reject beh sid s tr l1 l2 c e2 evs hInv hp hh
  | handlerSettleFF l1 l2 c e2 evs hp hh =>
    exact preserve_ff beh sid s tr l1 l2 c e2 evs hInv hp hh

theorem inv_init (sid : String) : Inv sid (initSys sid).1 (initSys sid).2 := by
  refine ⟨?_, ?_, ?_, ?_, ?_, ?_, ?_, ?_⟩ <;>
    simp [initSys, engineConstruct, engineStart, initWorker, tokInit, tokCycle, b2n,
      isResolvedPendingB, hostPosts, workerPosts, stageLen, initTrace, isInitEv, fullInitList,
      trackUserStart, List.countP_cons, List.countP_nil, isInitialiseMsg, isInitDoneMsg,
      isCycleStimulus, isRunCycleDoneMsg, isNextPost, isResolveEv, isRejectEv, isCycleDispatch]

theorem reach_inv (beh : ScriptBeh) (sid : String) (s : Sys) (tr : List Ev)
    (h : Reach beh sid s tr) : Inv sid s tr := by
  induction h with
  | init => exact inv_init sid
  | step s tr evs s2 hr hs ih => exact step_preserves beh sid s tr evs s2 ih hs

theorem stalled_reachfrom (beh : ScriptBeh) (sid : String) (s s2 : Sys) (tr : List Ev)
    (hst : Stalled s) (hr : ReachFrom beh sid s s2 tr) :
    Stalled s2 ∧ hostPosts tr = [] ∧ workerPosts tr = [] := by
  induction hr with
  | refl => exact ⟨hst, rfl, rfl⟩
  | step t tr evs t2 hrf hstep ih =>
    obtain ⟨⟨hq1, hq2, hq3, hq4, hq5, hq6⟩, hh1, hh2⟩ := ih
    cases hstep with
    | deliverWorkerToHost m rest e2 evs hq hh =>
      rw [hq2] at hq
      cases hq
    | deliverHostToWorker m rest w2 evs hq hh =>
      rw [hq1] at hq
      cases hq
    | engineInitCont e2 evs hp hh =>
      exact absurd hp hq6
    | workerInitFinish w2 evs hp hh =>
      rw [hq3] at hp
      cases hp
    | workerUnwrapFinish l1 l2 r w2 evs hp hh =>
      rw [hq4] at hp
      exact absurd hp.symm (List.append_ne_nil_of_right_ne_nil l1 (List.cons_ne_nil r l2))
    | handlerResolve l1 l2 c r e2 evs hp hh =>
      rw [hq5] at hp
      exact absurd hp.symm (List.append_ne_nil_of_right_ne_nil l1 (List.cons_ne_nil c l2))
    | handlerReject l1 l2 c e2 evs hp hh =>
      rw [hq5] at hp
      exact absurd hp.symm (List.append_ne_nil_of_right_ne_nil l1 (List.cons_ne_nil c l2))
    | handlerSettleFF l1 l2 c e2 evs hp hh =>
      simp only [settleFF, Prod.mk.injEq] at hh
      obtain ⟨he2, hevs⟩ := hh
      subst he2; subst hevs
      refine ⟨⟨?_, ?_, hq3, hq4, ?_, ?_⟩, ?_, ?_⟩
      · simp [hq1, hostPosts]
      · simp [hq2, workerPosts]
      · simpa using hq5
      · simpa using hq6
      · rw [hostPosts_append, hh1]
        rfl
      · rw [workerPosts_append, hh2]
        rfl

/-- C1: for every reachable state and trace of the closed system, at most
one Command is outstanding at the Command Handler (strict alternation, not
a queue), every nextRunCycle post corresponds exactly to a settled
resolution of the run-cycle handler promise, and the number of nextRunCycle
posts never exceeds the number of Commands received and dispatched from
runCycleDone events. -/
theorem engine_strict_alternation (beh : ScriptBeh) (sid : String) (s : Sys) (tr : List Ev)
    (h : Reach beh sid s tr) :
    s.engine.pendingCycle.length ≤ 1
    ∧ tr.countP isNextPost = tr.countP isResolveEv
    ∧ tr.countP isNextPost ≤ tr.countP isCycleDispatch := by
  obtain ⟨hIdle, hW, hR, hD, hLe, hIT, hNE, hAC⟩ := reach_inv beh sid s tr h
  refine ⟨?_, hNE, ?_⟩
  · simp only [tokInit, tokCycle] at hLe
    omega
  · omega

/-- Witness for engine_strict_alternation at the initial system. -/
theorem engine_strict_alternation_witness :
    (initSys "abc123").1.engine.pendingCycle.length ≤ 1
    ∧ (initSys "abc123").2.countP isNextPost = (initSys "abc123").2.countP isResolveEv
    ∧ (initSys "abc123").2.countP isNextPost ≤ (initSys "abc123").2.countP isCycleDispatch :=
  engine_strict_alternation (fun _ _ => Except.ok (ScriptEvent.unknown "e")) "abc123" _ _
    Reach.init

/-- C3: every reachable trace restricted to the initialisation handshake is
a prefix (a take) of: one initialise post, one initialiseDone reply, one
fire-and-forget dispatch of SystemEvent "initialized", one firstRunCycle
post carrying the session identifier, in that order; the complete
handshake is reached on an actual run; and settling a fire-and-forget
handler promise has no observable effect (its outcome is not awaited or
propagated). -/
theorem init_handshake (beh : ScriptBeh) (sid : String) (s : Sys) (tr : List Ev)
    (h : Reach beh sid s tr) :
    (∃ n, initTrace tr = (fullInitList sid).take n)
    ∧ (∃ s2 tr2, Reach beh sid s2 tr2 ∧ initTrace tr2 = fullInitList sid)
    ∧ (∀ e l1 l2 c, settleFF e l1 l2 c = ({ e with pendingFF := l1 ++ l2 }, ([] : List Ev))) := by
  refine ⟨⟨stageLen s, (reach_inv beh sid s tr h).initT⟩, ?_, fun _ _ _ _ => rfl⟩
  have st0 : Reach beh sid (initSys sid).1 (initSys sid).2 := Reach.init
  have st1 := Reach.step _ _ _ _ st0
    (Step.deliverHostToWorker _ HostMsg.initialise [] _ _ rfl rfl)
  have st2 := Reach.step _ _ _ _ st1 (Step.workerInitFinish _ _ _ rfl rfl)
  have st3 := Reach.step _ _ _ _ st2
    (Step.deliverWorkerToHost _ WorkerMsg.initialiseDone [] _ _ rfl rfl)
  have st4 := Reach.step _ _ _ _ st3 (Step.engineInitCont _ _ _ rfl rfl)
  exact ⟨_, _, st4, rfl⟩

/-- Witness for init_handshake at the initial system. -/
theorem init_handshake_witness :
    (∃ n, initTrace (initSys "abc123").2 = (fullInitList "abc123").take n)
    ∧ (∃ s2 tr2, Reach (fun _ _ => Except.ok (ScriptEvent.unknown "e")) "abc123" s2 tr2
        ∧ initTrace tr2 = fullInitList "abc123")
    ∧ (∀ e l1 l2 c, settleFF e l1 l2 c = ({ e with pendingFF := l1 ++ l2 }, ([] : List Ev))) :=
  init_handshake (fun _ _ => Except.ok (ScriptEvent.unknown "e")) "abc123" _ _ Reach.init

/-- C4: a runCycleDone whose scriptEvent is not a recognized Command leaves
the engine state unchanged, invokes no handler and posts nothing; and from
a quiescent system (nothing queued, no pending cycle or initialisation
work) no further message is ever posted on either side, so the cycle
silently stops advancing without throwing past the engine boundary. -/
theorem unrecognized_command_stalls (e : EngineState) (ev : ScriptEvent)
    (beh : ScriptBeh) (sid : String) (s s2 : Sys) (tr : List Ev)
    (hev : isCommand ev = false) (hst : Stalled s) (hr : ReachFrom beh sid s s2 tr) :
    handleEvent e (WorkerMsg.runCycleDone ev) = (e, ([] : List Ev))
    ∧ hostPosts tr = [] ∧ workerPosts tr = [] := by
  refine ⟨?_, (stalled_reachfrom beh sid s s2 tr hst hr).2.1,
    (stalled_reachfrom beh sid s s2 tr hst hr).2.2⟩
  cases ev with
  | cmd c => simp [isCommand, asCommand] at hev
  | unknown t => rfl

/-- Witness for unrecognized_command_stalls at a concrete quiescent state. -/
theorem unrecognized_command_stalls_witness :
    handleEvent (EngineState.mk InitPhase.done [] [])
        (WorkerMsg.runCycleDone (ScriptEvent.unknown "bogus"))
      = (EngineState.mk InitPhase.done [] [], ([] : List Ev))
    ∧ hostPosts [] = [] ∧ workerPosts [] = [] :=
  unrecognized_command_stalls (EngineState.mk InitPhase.done [] [])
    (ScriptEvent.unknown "bogus") (fun _ _ => Except.ok (ScriptEvent.unknown "e")) "abc123"
    (Sys.mk (EngineState.mk InitPhase.done [] []) initWorker [] []) _ []
    rfl ⟨rfl, rfl, rfl, rfl, rfl, by decide⟩ (ReachFrom.refl _)

/-- C6: a recognized Command is dispatched to the Command Handler exactly
once (recorded as pending), every nextRunCycle post on any reachable trace
corresponds exactly to a resolution of that promise and carries the
resolved Response, and a rejection removes the pending Command without
posting anything, retrying, or propagating the error. -/
theorem recognized_command_roundtrip (beh : ScriptBeh) (sid : String) (s : Sys) (tr : List Ev)
    (h : Reach beh sid s tr) :
    (∀ e c, handleRunCycle e (ScriptEvent.cmd c)
        = ({ e with pendingCycle := e.pendingCycle ++ [c] }, [Ev.dispatch c]))
    ∧ tr.countP isNextPost = tr.countP isResolveEv
    ∧ (∀ e l1 l2 c r, cycleResolve e l1 l2 c r
        = ({ e with pendingCycle := l1 ++ l2 },
           [Ev.settle c (some r), Ev.postHost (HostMsg.nextRunCycle r)]))
    ∧ (∀ e l1 l2 c, cycleReject e l1 l2 c
        = ({ e with pendingCycle := l1 ++ l2 }, [Ev.settle c none])) :=
  ⟨fun _ _ => rfl, (reach_inv beh sid s tr h).nextEq, fun _ _ _ _ _ => rfl, fun _ _ _ _ => rfl⟩

/-- Witness for recognized_command_roundtrip at the initial system. -/
theorem recognized_command_roundtrip_witness :
    (∀ e c, handleRunCycle e (ScriptEvent.cmd c)
        = ({ e with pendingCycle := e.pendingCycle ++ [c] }, [Ev.dispatch c]))
    ∧ (initSys "abc123").2.countP isNextPost = (initSys "abc123").2.countP isResolveEv
    ∧ (∀ e l1 l2 c r, cycleResolve e l1 l2 c r
        = ({ e with pendingCycle := l1 ++ l2 },
           [Ev.settle c (some r), Ev.postHost (HostMsg.nextRunCycle r)]))
    ∧ (∀ e l1 l2 c, cycleReject e l1 l2 c
        = ({ e with pendingCycle := l1 ++ l2 }, [Ev.settle c none])) :=
  recognized_command_roundtrip (fun _ _ => Except.ok (ScriptEvent.unknown "e")) "abc123" _ _
    Reach.init

end Port
